import Mathlib

/-!
Verification of the transform / subsample / gate core of
FlowCytometryTools (src/FlowCytometryTools/core/containers.py)
against its natural-language specification.

The event table of a measurement is modelled as a list of rows (row
label, list of cells) under a list of column names; numeric values are
modelled as exact rationals (IEEE-754 rounding of Python floats is out
of scope).  Fallible operations return `Except Err`.  The base-class
helpers that containers.py inherits from core/bases.py (`copy`,
`get_data`, `set_data`, `MeasurementCollection.apply`) are not part of
the provided source; following the spec (section 3 lifecycle and
section 4.4 fan-out) they are modelled as pure value copies and
per-member mapping.
-/

/-- Numeric values (Python floats) are modelled as exact rationals. -/
abbrev Value := ℚ

/-- The error outcomes of the embedded operations.  Each constructor
stands for one concrete `raise` site (or uncaught exception) of
containers.py:
* `floatKeyRange`: ValueError "If float, key must be between 0.0 and 1.0"
* `badTuple`: ValueError "Tuple must consist of two floats, each between 0.0 and 1.0"
* `notSameRange hint`: the Exception "Not all specified channels have the
  same data range ..."; `hint = true` when the message carries the
  "HINT: Try transforming one channel at a time" sentence
  (FCMeasurement.transform), `hint = false` for the FCCollection.transform
  message, which has no hint
* `badOrder`: ValueError "order must be in ('random', 'start', 'end')"
* `badKeyType`: TypeError "'key' must be of type int, float, tuple or slice."
* `typeErrorNone`: the TypeError raised by Python 3 when the auto-resize
  clamp compares a `None` slice bound with an int
* `indexError`: an IndexError from indexing an empty list or a too-short
  tuple (`ranges[0]`, `list(self.values())[0]`, `key[0]`, `key[1]`)
* `keyError`: pandas KeyError for a selected column absent from the table
* `sampleTooLarge`: ValueError from `random.sample` when the requested
  count exceeds the population
* `zeroStep`: ValueError from positional slicing with step 0. -/
inductive Err where
  | floatKeyRange
  | badTuple
  | notSameRange (hint : Bool)
  | badOrder
  | badKeyType
  | typeErrorNone
  | indexError
  | keyError
  | sampleTooLarge
  | zeroStep
deriving DecidableEq, Repr

/-- One element of a Python tuple passed to `subsample`: either a float
or a value of any other type (only `isinstance(x, float)` is ever
inspected). -/
inductive PyVal where
  | float (q : Value)
  | nonFloat
deriving DecidableEq

/-- The `key` argument of `subsample`: int, float, tuple, slice, or any
other type. -/
inductive PyKey where
  | int (n : ℤ)
  | float (q : Value)
  | tuple (xs : List PyVal)
  | slice (start stop step : Option ℤ)
  | other
deriving DecidableEq

/-- Python's `int(N * q)` for a non-negative integer `N` and a rational
`q`: exact truncation toward zero, computed as the truncated division
`(N * q.num).tdiv q.den` so that the kernel can evaluate it.
`pyIntMul_eq_floor` below identifies it with `⌊N * q⌋` for `0 ≤ q`. -/
def pyIntMul (N : ℕ) (q : Value) : ℤ :=
  Int.tdiv ((N : ℤ) * q.num) (q.den : ℤ)

/-- The single-pair test of `np.allclose(r, r0)` with numpy's default
tolerances `rtol = 1e-5`, `atol = 1e-8`, i.e. `|r - r0| ≤ atol + rtol * |r0|`,
cross-multiplied by the (positive) denominators into the equivalent
integer inequality
`10^8 * |r.num * r0.den - r0.num * r.den| ≤ r.den * r0.den + 10^3 * |r0.num| * r.den`
so that the kernel can evaluate it.  `npIsClose_iff` below proves the
equivalence with the textbook form. -/
def npIsClose (r r0 : Value) : Bool :=
  100000000 * (r.num * (r0.den : ℤ) - r0.num * (r.den : ℤ)).natAbs ≤
    r.den * r0.den + 1000 * r0.num.natAbs * r.den

/-- numpy's absolute tolerance default `1e-8`. -/
def npAtol : Value := 1 / 100000000

/-- numpy's relative tolerance default `1e-5`. -/
def npRtol : Value := 1 / 100000

/-- The check `np.allclose(ranges, ranges[0])` as used by both transform range
validations: every element close to the head. -/
def npAllClose (rs : List Value) (r0 : Value) : Bool :=
  rs.all (fun r => npIsClose r r0)

deriving instance DecidableEq for Except

/-- Resolution of a Python slice's start and stop bounds against a
sequence length `L`, following CPython's `slice.indices` algorithm
(`None` bounds default by the sign of the step, negative bounds count
from the end, and everything is clamped to the valid range). -/
def sliceResolve (L : ℕ) (start stop : Option ℤ) (s : ℤ) : ℤ × ℤ :=
  let lower : ℤ := if 0 < s then 0 else -1
  let upper : ℤ := if 0 < s then (L : ℤ) else (L : ℤ) - 1
  let st : ℤ := match start with
    | none => if 0 < s then lower else upper
    | some a => if a < 0 then max (a + (L : ℤ)) lower else min a upper
  let sp : ℤ := match stop with
    | none => if 0 < s then upper else lower
    | some b => if b < 0 then max (b + (L : ℤ)) lower else min b upper
  (st, sp)

/-- Number of indices produced by a Python slice with resolved bounds
`st`, `sp` and non-zero step `s`. -/
def sliceCount (st sp s : ℤ) : ℕ :=
  if 0 < s then (if sp ≤ st then 0 else ((sp - st - 1) / s + 1).toNat)
  else (if st ≤ sp then 0 else ((st - sp - 1) / (-s) + 1).toNat)

/-- The list of positions selected by a Python slice over a sequence of
length `L` (step `s` must be non-zero). -/
def sliceIdx (L : ℕ) (start stop : Option ℤ) (s : ℤ) : List ℕ :=
  let r := sliceResolve L start stop s
  (List.range (sliceCount r.1 r.2 s)).map (fun i => (r.1 + (i : ℤ) * s).toNat)

/-- Positional slicing `xs[start:stop:step]` as `DataFrame.iloc` performs
it; a zero step raises ValueError. -/
def pySliceElems (L : ℕ) (start stop step : Option ℤ) : Except Err (List ℕ) :=
  let s := step.getD 1
  if s = 0 then .error .zeroStep
  else .ok (sliceIdx L start stop s)

/-- A pandas DataFrame: named columns and labelled rows.  Each row is a
(row label, cells) pair; labels are natural numbers (the event index),
cells are aligned positionally with `columns`. -/
structure DataFrame where
  columns : List String
  rows : List (ℕ × List Value)
deriving DecidableEq, Repr

/-- A well-formed frame: every row has exactly one cell per column. -/
def DataFrame.WF (df : DataFrame) : Prop :=
  ∀ r ∈ df.rows, r.2.length = df.columns.length

/-- The row labels (the pandas index), in table order. -/
def DataFrame.labels (df : DataFrame) : List ℕ :=
  df.rows.map Prod.fst

/-- The cell of column `c` in a row given by parallel lists of column
names and cell values (first matching column, 0 if absent — absent never
occurs on well-formed frames where `c` is a real column). -/
def projCell : List String → List Value → String → Value
  | [], _, _ => 0
  | _ :: _, [], _ => 0
  | c0 :: cols, v :: vs, c => if c0 = c then v else projCell cols vs c

/-- Column extraction `df[c]`: `none` when the column is absent. -/
def DataFrame.colVals (df : DataFrame) (c : String) : Option (List Value) :=
  if c ∈ df.columns then some (df.rows.map (fun r => projCell df.columns r.2 c)) else none

/-- Filtering `df.filter(items)`: keep the columns named in `items` that exist in
the frame, in the order of `items` (pandas reindex semantics). -/
def DataFrame.filterCols (df : DataFrame) (items : List String) : DataFrame :=
  let keep := items.filter (fun c => decide (c ∈ df.columns))
  ⟨keep, df.rows.map (fun r => (r.1, keep.map (fun c => projCell df.columns r.2 c)))⟩

/-- One row of the column assignment `df[cs] = f(df[cs])`: cells of the
selected columns are replaced by their image under `f`, the others are
kept (cells pair positionally with the column list; on well-formed
frames the two lists have equal length). -/
def mapCells (cs : List String) (f : Value → Value) : List String → List Value → List Value
  | _, [] => []
  | [], v :: vs => v :: vs
  | c0 :: cols, v :: vs => (if c0 ∈ cs then f v else v) :: mapCells cs f cols vs

/-- The column assignment `df[cs] = transformed` where `transformed` is
the elementwise image of `df[cs]` under `f`. -/
def DataFrame.assignCols (df : DataFrame) (cs : List String) (f : Value → Value) : DataFrame :=
  ⟨df.columns, df.rows.map (fun r => (r.1, mapCells cs f df.columns r.2))⟩

/-- Positional selection `df.iloc[positions]`: select rows by position. -/
def DataFrame.ilocPos (df : DataFrame) (pos : List ℕ) : DataFrame :=
  ⟨df.columns, pos.filterMap (fun i => df.rows.get? i)⟩

/-- Label selection `df.loc[ls]` for a list of row labels: for each requested label, all
rows carrying that label, in table order (pandas semantics for a
possibly non-unique index). -/
def DataFrame.locLabels (df : DataFrame) (ls : List ℕ) : DataFrame :=
  ⟨df.columns, ls.flatMap (fun l => df.rows.filter (fun r => decide (r.1 = l)))⟩

/-- The FCS metadata a Measurement carries: the `_channel_names_` tuple
and the `_channels_` table's `$PnR` (range) column.  The `_channels_`
table is indexed 1..n (fcsparser's `reformat_meta`), so its row with
index `i` pairs with `channel_names[i - 1]`; here the two lists are
paired positionally, which is the same correspondence. -/
structure Meta where
  channelNames : List String
  pnr : List Value
deriving DecidableEq, Repr

/-- One flow-cytometry sample: identity, metadata, event table. -/
structure FCMeasurement where
  ID : String
  meta : Meta
  data : DataFrame
deriving DecidableEq, Repr

/-- Modelled from the spec: `Measurement.copy` (core/bases.py, not under
src/) produces an independent copy sharing metadata; with immutable Lean
values this is the identity. -/
def FCMeasurement.copy (m : FCMeasurement) : FCMeasurement := m

/-- The range parameter `d` finally present in the Transformation's
keyword arguments: either the caller's explicit value, or the derived
`np.log10(sharedRange)` kept symbolically (`log10 r` stands for the real
number log10(r); the transcendental is never evaluated by the core). -/
inductive ParamD where
  | explicitD (v : Value)
  | log10 (v : Value)
deriving DecidableEq, Repr

/-- The external Transformation collaborator (core/transforms.py,
outside the spec's scope): it records the construction arguments, acts
elementwise on values through `f`, and can hold fitted spline bounds.
`spline = some (xmin, xmax)` after `set_spline(xmin, xmax)`; the inner
options model pandas `max`/`min` results that can be NaN on empty
selections. -/
structure Transformation where
  kind : String
  direction : String
  f : Value → Value
  dParam : Option ParamD
  spline : Option (Option Value × Option Value)

/-- The numeric action of a transform, supplied externally: from (kind,
direction, d) to an elementwise function. -/
abbrev TransformImpl := String → String → Option ParamD → Value → Value

/-- The constructor `Transformation(transform, direction, args, **kwargs)`: a freshly
built transformer with no spline. -/
def mkTransformation (impl : TransformImpl) (kind direction : String)
    (d : Option ParamD) : Transformation :=
  ⟨kind, direction, impl kind direction d, d, none⟩

/-- The `transform` argument: either an already built Transformation or
the name of a transform to build. -/
inductive TransformSpec where
  | prebuilt (t : Transformation)
  | named (kind : String)

/-- The transform names for which the derived range parameter `d` is
injected (`{'hlog', 'tlog', 'hlog_inv', 'tlog_inv'}`). -/
def logKinds : List String := ["hlog", "tlog", "hlog_inv", "tlog_inv"]

/-- The declared ranges of the selected channels:
`[float(r['$PnR']) for i, r in channel_meta.iterrows() if channel_names[i - 1] in channels]`
(the 1-based `_channels_` index cancels against the `- 1`, leaving the
positional pairing). -/
def selRanges (meta : Meta) (channels : List String) : List Value :=
  ((meta.channelNames.zip meta.pnr).filter (fun p => decide (p.1 ∈ channels))).map Prod.snd

/-- The auto-range logic shared by FCMeasurement.transform and
FCCollection.transform: decide the final range parameter `d` for a
freshly built transform.  With `auto_range` and no explicit `d`, the
selected channels' declared ranges must pass `np.allclose` against the
first one (`ranges[0]` on an empty selection raises IndexError), and for
the log-like kinds `d = log10(ranges[0])` is injected.  An explicit `d`
always wins (with a non-fatal warning when `auto_range` is also set,
which the model drops). -/
def deriveD (autoRange : Bool) (dArg : Option Value) (meta : Meta)
    (channels : List String) (kind : String) (hint : Bool) : Except Err (Option ParamD) :=
  if autoRange then
    match dArg with
    | some v => .ok (some (.explicitD v))
    | none =>
        match selRanges meta channels with
        | [] => .error .indexError
        | r0 :: rest =>
            if npAllClose (r0 :: rest) r0 then
              if kind ∈ logKinds then .ok (some (.log10 r0)) else .ok none
            else .error (.notSameRange hint)
  else .ok (dArg.map .explicitD)

/-- FCMeasurement.transform (containers.py lines 207-287).  `channels?`
is the `channels` argument (`none` selects all data columns); `dArg`
models `kwargs['d']`.  The spline flag `use_spln` only selects the
numeric evaluation strategy of the collaborator, so the model applies
`f` exactly in both cases.  The `get_transformer` flag only selects the
Python return arity; the model always returns the pair, and `ID`
replacement is not modelled (the claims do not touch it).  Returns the
new measurement and the transformer used. -/
def FCMeasurement.transform (impl : TransformImpl) (m : FCMeasurement)
    (spec : TransformSpec) (direction : String) (channels? : Option (List String))
    (returnAll autoRange _useSpln : Bool) (dArg : Option Value) :
    Except Err (FCMeasurement × Transformation) := do
  let data := m.data
  let channels := channels?.getD data.columns
  let transformer ← match spec with
    | .prebuilt t => Except.ok t
    | .named kind => do
        let d ← deriveD autoRange dArg m.meta channels kind true
        Except.ok (mkTransformation impl kind direction d)
  -- transformed = transformer(data[channels], use_spln): needs every
  -- selected channel present (else pandas KeyError)
  if channels.all (fun c => decide (c ∈ data.columns)) then
    let newData := if returnAll then data else data.filterCols channels
    Except.ok (⟨m.ID, m.meta, newData.assignCols channels transformer.f⟩, transformer)
  else Except.error .keyError

/-- Sampling `random.sample(population, k)`: raises ValueError when `k` exceeds
the population size, otherwise defers to the random source `σ`. -/
def pySample (σ : List ℕ → ℕ → List ℕ) (l : List ℕ) (k : ℕ) : Except Err (List ℕ) :=
  if l.length < k then .error .sampleTooLarge else .ok (σ l k)

/-- A faithful random source: `σ l k` is (some permutation of) a
k-element position-subsequence of `l`, which is exactly the guarantee of
`random.sample` (distinct positions, any order). -/
def validSample (σ : List ℕ → ℕ → List ℕ) : Prop :=
  ∀ l k, k ≤ l.length → ∃ sub, sub.Sublist l ∧ sub.length = k ∧ (σ l k).Perm sub

/-- A concrete admissible random source (always picks the first k). -/
def sampleTake (l : List ℕ) (k : ℕ) : List ℕ := l.take k

/-- The test `isinstance(x, float)` for a tuple element. -/
def PyVal.isFloat : PyVal → Bool
  | .float _ => true
  | .nonFloat => false

/-- The key-normalization prefix of subsample (containers.py lines
307-317): a float key is range-checked and becomes an int count
(`int(num_events * key)`); a tuple key is shape-checked (`len > 2` or a
non-float element is the ValueError; note no [0,1] check happens here)
and becomes a slice from `int(N * key[0])` to `int(N * key[1])` (a tuple
shorter than two raises IndexError at `key[0]` / `key[1]`); other keys
pass through. -/
def convertKey (N : ℕ) : PyKey → Except Err PyKey
  | .float q =>
      if 1 < q ∨ q < 0 then .error .floatKeyRange
      else .ok (.int (pyIntMul N q))
  | .tuple xs =>
      if 2 < xs.length ∨ ¬ (xs.all PyVal.isFloat) then .error .badTuple
      else
        match xs with
        | .float a :: .float b :: _ =>
            .ok (.slice (some (pyIntMul N a)) (some (pyIntMul N b)) none)
        | _ => .error .indexError
  | k => .ok k

/-- The slice branch of subsample (lines 320-325).  With `auto_resize`
the code computes `key.stop if key.stop < num_events else num_events`
and the same for the start, so a `None` bound raises TypeError (Python 3
comparison with int), the stop being compared first; otherwise the slice
runs through `iloc` unchanged. -/
def sliceSelect (data : DataFrame) (start stop step : Option ℤ)
    (autoResize : Bool) : Except Err DataFrame :=
  let N := data.rows.length
  if autoResize then
    match stop with
    | none => .error .typeErrorNone
    | some b =>
        let b2 := if b < (N : ℤ) then b else (N : ℤ)
        match start with
        | none => .error .typeErrorNone
        | some a =>
            let a2 := if a < (N : ℤ) then a else (N : ℤ)
            (pySliceElems N (some a2) (some b2) step).map data.ilocPos
  else (pySliceElems N start stop step).map data.ilocPos

/-- The int branch of subsample (lines 326-340): clamp the count when
`auto_resize`, force the 'start' policy when the count is below 1, then
dispatch on `order` ('random' samples labels and reads them back through
`loc`; 'start' is `iloc[:key]`; 'end' is `iloc[-key:]`; anything else is
the ValueError). -/
def intSelect (σ : List ℕ → ℕ → List ℕ) (data : DataFrame) (k0 : ℤ)
    (order : String) (autoResize : Bool) : Except Err DataFrame :=
  let N := data.rows.length
  let k1 : ℤ := if autoResize ∧ (N : ℤ) < k0 then (N : ℤ) else k0
  let order1 := if k1 < 1 then "start" else order
  if order1 = "random" then (pySample σ data.labels k1.toNat).map data.locLabels
  else if order1 = "start" then (pySliceElems N none (some k1) none).map data.ilocPos
  else if order1 = "end" then (pySliceElems N (some (-k1)) none none).map data.ilocPos
  else .error .badOrder

/-- FCMeasurement.subsample (containers.py lines 289-349), parameterized
by the random source `σ` used by `random.sample`: normalize the key,
dispatch on its final type (any type other than slice/int at this point
is the TypeError of line 342), and wrap the selected rows in a copy of
the measurement (`self.copy()` + `set_data`). -/
def FCMeasurement.subsample (σ : List ℕ → ℕ → List ℕ) (m : FCMeasurement)
    (key : PyKey) (order : String) (autoResize : Bool) : Except Err FCMeasurement := do
  let key2 ← convertKey m.data.rows.length key
  let newdata ← match key2 with
    | .slice start stop step => sliceSelect m.data start stop step autoResize
    | .int k0 => intSelect σ m.data k0 order autoResize
    | _ => Except.error .badKeyType
  Except.ok (FCMeasurement.mk m.copy.ID m.copy.meta newdata)

/-- FCMeasurement.gate (containers.py lines 351-371): a Gate is any
callable from table to table; the result is a copy of the measurement
with the gate's output as its data. -/
def FCMeasurement.gate (m : FCMeasurement) (g : DataFrame → DataFrame) : FCMeasurement :=
  FCMeasurement.mk m.copy.ID m.copy.meta (g m.data)

/-- FCMeasurement.counts: total number of events. -/
def FCMeasurement.counts (m : FCMeasurement) : ℕ :=
  m.data.rows.length

/-- A collection: keyed measurements in insertion order (the dict-like
MeasurementCollection base, modelled from the spec as a keyed list). -/
abbrev FCCollection := List (String × FCMeasurement)

/-- The selected sub-table `df[cs]` flattened to its cell values (used
only for extrema, where layout is irrelevant). -/
def selectedCells (df : DataFrame) (cs : List String) : List Value :=
  cs.flatMap (fun c => (df.colVals c).getD [])

/-- The member maximum `x[channels].max().max()` for one member: pandas KeyError when a
selected channel is absent, otherwise the maximum of all selected cells
(`none` models the NaN produced by an empty selection, which the outer
skipna maxima ignore). -/
def memberMax (m : FCMeasurement) (cs : List String) : Except Err (Option Value) :=
  if cs.all (fun c => decide (c ∈ m.data.columns)) then
    .ok (selectedCells m.data cs).max?
  else .error .keyError

/-- The member minimum `x[channels].min().min()` for one member. -/
def memberMin (m : FCMeasurement) (cs : List String) : Except Err (Option Value) :=
  if cs.all (fun c => decide (c ∈ m.data.columns)) then
    .ok (selectedCells m.data cs).min?
  else .error .keyError

/-- Combine two possibly-NaN maxima as pandas `max` does (skipna). -/
def optMax : Option Value → Option Value → Option Value
  | none, b => b
  | some a, none => some a
  | some a, some b => some (max a b)

/-- Combine two possibly-NaN minima as pandas `min` does (skipna). -/
def optMin : Option Value → Option Value → Option Value
  | none, b => b
  | some a, none => some a
  | some a, some b => some (min a b)

/-- The fold `self.apply(lambda x: x[channels].max().max(), applyto='data').max().max()`:
the collection-wide maximum of the selected channels (modelled from the
spec's section 4.4 fan-out for the base-class `apply`). -/
def collMax : FCCollection → List String → Except Err (Option Value)
  | [], _ => .ok none
  | (_, m) :: tl, cs => do
      let h ← memberMax m cs
      let t ← collMax tl cs
      Except.ok (optMax h t)

/-- The collection-wide minimum of the selected channels. -/
def collMin : FCCollection → List String → Except Err (Option Value)
  | [], _ => .ok none
  | (_, m) :: tl, cs => do
      let h ← memberMin m cs
      let t ← collMin tl cs
      Except.ok (optMin h t)

/-- The specification's formulation of the shared spline bound: the
maximum of the selected channels' values over ALL members at once. -/
def specGlobalMax (coll : FCCollection) (cs : List String) : Option Value :=
  (coll.flatMap (fun km => selectedCells km.2.data cs)).max?

/-- The specification's formulation of the shared spline lower bound. -/
def specGlobalMin (coll : FCCollection) (cs : List String) : Option Value :=
  (coll.flatMap (fun km => selectedCells km.2.data cs)).min?

/-- The shared-transform fan-out: every member transformed with the one
prebuilt transformer (`v.transform(transformer, channels=channels,
return_all=return_all, use_spln=use_spln, apply_now=apply_now)`; the
remaining arguments keep their per-measurement defaults). -/
def transformShared (impl : TransformImpl) (t : Transformation) (cs : List String)
    (returnAll useSpln : Bool) : FCCollection → Except Err FCCollection
  | [] => .ok []
  | (k, m) :: tl => do
      let r ← m.transform impl (.prebuilt t) "forward" (some cs) returnAll true useSpln none
      let rest ← transformShared impl t cs returnAll useSpln tl
      Except.ok ((k, r.1) :: rest)

/-- The independent fan-out (`share_transform=False`): the full
construction-and-apply logic delegated to each member. -/
def transformEach (impl : TransformImpl) (spec : TransformSpec) (direction : String)
    (channels? : Option (List String)) (returnAll autoRange useSpln : Bool)
    (dArg : Option Value) : FCCollection → Except Err FCCollection
  | [] => .ok []
  | (k, m) :: tl => do
      let r ← m.transform impl spec direction channels? returnAll autoRange useSpln dArg
      let rest ← transformEach impl spec direction channels? returnAll autoRange useSpln dArg tl
      Except.ok ((k, r.1) :: rest)

/-- FCCollection.transform (containers.py lines 386-469).  With
`share_transform` the first member's metadata is the representative:
`channels` defaults to ITS channel list, `deriveD` validates ITS ranges
(error message without the hint sentence), and — when `use_spln` and the
transformer is freshly built — the spline bounds are the collection-wide
extrema.  Every member is then transformed through the prebuilt path.
Without sharing, each member runs the full logic itself.  The returned
option is the shared transformer when `share_transform` and
`get_transformer` are both set (matching the Python return arity). -/
def FCCollection.transform (impl : TransformImpl) (coll : FCCollection)
    (spec : TransformSpec) (direction : String) (shareTransform : Bool)
    (channels? : Option (List String)) (returnAll autoRange useSpln getTransformer : Bool)
    (dArg : Option Value) : Except Err (FCCollection × Option Transformation) := do
  if shareTransform then
    match coll with
    | [] => Except.error .indexError
    | (_, m0) :: _ => do
        let channels := channels?.getD m0.meta.channelNames
        let transformer ← match spec with
          | .prebuilt t => Except.ok t
          | .named kind => do
              let d ← deriveD autoRange dArg m0.meta channels kind false
              let t := mkTransformation impl kind direction d
              if useSpln then do
                let xmax ← collMax coll channels
                let xmin ← collMin coll channels
                Except.ok (Transformation.mk t.kind t.direction t.f t.dParam (some (xmin, xmax)))
              else Except.ok t
        let newColl ← transformShared impl transformer channels returnAll useSpln coll
        Except.ok (newColl, if getTransformer then some transformer else none)
  else do
    let newColl ← transformEach impl spec direction channels? returnAll autoRange useSpln dArg coll
    Except.ok (newColl, none)

/-- Projection of the error side of a result (the payload types carry
functions, so whole-result equality is not decidable; the error side
is). -/
def errOf {α : Type} : Except Err α → Option Err
  | .error e => some e
  | .ok _ => none

/-- Projection of the shared transformer's spline bounds out of an
FCCollection.transform result. -/
def sharedSpline : Except Err (FCCollection × Option Transformation) →
    Option (Option Value × Option Value)
  | .ok (_, some t) => t.spline
  | _ => none

/-- Projection of the transformer's range parameter out of an
FCMeasurement.transform result. -/
def resultD : Except Err (FCMeasurement × Transformation) → Option (Option ParamD)
  | .ok (_, t) => some t.dParam
  | .error _ => none

/-- A trivial but concrete transform implementation (identity numeric
action) used to instantiate theorems at concrete inputs. -/
def implId : TransformImpl := fun _ _ _ v => v

/-- Two channels whose declared ranges differ (1000000 vs 1000001) by
less than the `np.allclose` tolerance. -/
def mRangeTol : FCMeasurement :=
  ⟨"m", ⟨["A", "B"], [1000000, 1000001]⟩, ⟨["A", "B"], [(0, [1, 2])]⟩⟩

/-- Two channels with equal declared ranges. -/
def mRangeEq : FCMeasurement :=
  ⟨"m", ⟨["A", "B"], [1000, 1000]⟩, ⟨["A", "B"], [(0, [1, 2])]⟩⟩

/-- Two channels whose declared ranges differ far beyond tolerance. -/
def mRangeNeq : FCMeasurement :=
  ⟨"m", ⟨["A", "B"], [1000, 2000]⟩, ⟨["A", "B"], [(0, [1, 2])]⟩⟩

/-- A member declaring range 1000 for channel A. -/
def wellR1000 : FCMeasurement := ⟨"w1", ⟨["A"], [1000]⟩, ⟨["A"], [(0, [1])]⟩⟩

/-- A member declaring range 2000 for the same channel A. -/
def wellR2000 : FCMeasurement := ⟨"w2", ⟨["A"], [2000]⟩, ⟨["A"], [(0, [5])]⟩⟩

/-- A collection whose two members declare different ranges for the
selected channel. -/
def collMismatch : FCCollection := [("k1", wellR1000), ("k2", wellR2000)]

/-- Two members with equal ranges but different data extrema: values
{1, 5} and {2, 9}. -/
def wellSp1 : FCMeasurement := ⟨"w1", ⟨["A"], [1000]⟩, ⟨["A"], [(0, [1]), (1, [5])]⟩⟩

/-- Second spline-test member. -/
def wellSp2 : FCMeasurement := ⟨"w2", ⟨["A"], [1000]⟩, ⟨["A"], [(0, [2]), (1, [9])]⟩⟩

/-- The two-member collection for the spline-bound claim; no single
member spans the global extrema (1, 9). -/
def collSpline : FCCollection := [("k1", wellSp1), ("k2", wellSp2)]

/-- A two-row measurement whose rows carry the SAME label 7 (pandas
allows a non-unique index). -/
def mDupLabels : FCMeasurement := ⟨"m", ⟨["A"], [1000]⟩, ⟨["A"], [(7, [1]), (7, [2])]⟩⟩

/-- A plain four-row measurement with distinct labels 0..3. -/
def mFour : FCMeasurement :=
  ⟨"m", ⟨["A"], [1000]⟩, ⟨["A"], [(0, [1]), (1, [2]), (2, [3]), (3, [4])]⟩⟩

/-- A plain two-row measurement with distinct labels. -/
def mTwoRows : FCMeasurement := ⟨"m", ⟨["A"], [1000]⟩, ⟨["A"], [(0, [1]), (1, [2])]⟩⟩

/-- A three-column measurement for the column-placement claim. -/
def mABC : FCMeasurement :=
  ⟨"m", ⟨["A", "B", "C"], [1000, 1000, 1000]⟩,
    ⟨["A", "B", "C"], [(0, [1, 2, 3]), (1, [4, 5, 6])]⟩⟩

/-- A one-member collection whose first member itself has mismatched
channel ranges. -/
def collBadFirst : FCCollection := [("k1", mRangeNeq)]

/-- An already-built identity transformation used as concrete input. -/
def tIdent : Transformation := ⟨"hlog", "forward", fun v => v, none, none⟩

theorem npIsClose_iff (r r0 : Value) :
    npIsClose r r0 = true ↔ |r - r0| ≤ npAtol + npRtol * |r0| := by
  have hB : (0 : ℚ) < (r.den : ℚ) := by exact_mod_cast r.den_pos
  have hD : (0 : ℚ) < (r0.den : ℚ) := by exact_mod_cast r0.den_pos
  have hsub : |r - r0| =
      |(r.num : ℚ) * (r0.den : ℚ) - (r0.num : ℚ) * (r.den : ℚ)| /
        ((r.den : ℚ) * (r0.den : ℚ)) := by
    conv_lhs => rw [← Rat.num_div_den r, ← Rat.num_div_den r0]
    rw [div_sub_div _ _ (ne_of_gt hB) (ne_of_gt hD), abs_div,
      abs_of_pos (mul_pos hB hD)]
    congr 1
    ring_nf
  have habs : |r0| = |(r0.num : ℚ)| / (r0.den : ℚ) := by
    conv_lhs => rw [← Rat.num_div_den r0]
    rw [abs_div, abs_of_pos hD]
  have hq : (|r - r0| ≤ npAtol + npRtol * |r0|) ↔
      (100000000 : ℚ) * |(r.num : ℚ) * (r0.den : ℚ) - (r0.num : ℚ) * (r.den : ℚ)| ≤
        (r.den : ℚ) * (r0.den : ℚ) + 1000 * |(r0.num : ℚ)| * (r.den : ℚ) := by
    rw [hsub, habs]
    unfold npAtol npRtol
    rw [div_le_iff₀ (mul_pos hB hD)]
    rw [← mul_le_mul_left (show (0 : ℚ) < 100000000 by norm_num)]
    have hRHS : (100000000 : ℚ) *
        ((1 / 100000000 + 1 / 100000 * (|(r0.num : ℚ)| / (r0.den : ℚ))) *
          ((r.den : ℚ) * (r0.den : ℚ))) =
        (r.den : ℚ) * (r0.den : ℚ) + 1000 * |(r0.num : ℚ)| * (r.den : ℚ) := by
      field_simp
      ring
    rw [hRHS]
  rw [hq]
  unfold npIsClose
  rw [decide_eq_true_iff]
  constructor
  · intro h
    have h' := (Nat.cast_le (α := ℚ)).mpr h
    push_cast [Int.cast_natAbs] at h'
    convert h' using 2
  · intro h
    have h' : ((100000000 * (r.num * (r0.den : ℤ) - r0.num * (r.den : ℤ)).natAbs : ℕ) : ℚ) ≤
        ((r.den * r0.den + 1000 * r0.num.natAbs * r.den : ℕ) : ℚ) := by
      push_cast [Int.cast_natAbs]
      convert h using 2
    exact_mod_cast h'

theorem pyIntMul_eq_floor (N : ℕ) (q : Value) (hq : 0 ≤ q) :
    pyIntMul N q = ⌊(N : ℚ) * q⌋ := by
  have hnum : 0 ≤ q.num := Rat.num_nonneg.mpr hq
  unfold pyIntMul
  rw [Int.tdiv_eq_ediv (mul_nonneg (Int.natCast_nonneg N) hnum) (Int.natCast_nonneg q.den)]
  rw [← Rat.floor_intCast_div_natCast ((N : ℤ) * q.num) q.den]
  congr 1
  push_cast
  rw [mul_div_assoc, Rat.num_div_den]

theorem validSample_sampleTake : validSample sampleTake := by
  intro l k hk
  exact ⟨l.take k, List.take_sublist k l, by simp [List.length_take, Nat.min_eq_left hk],
    List.Perm.refl _⟩

/-- C9: `gate` never mutates the input Measurement (the embedding's
operations are pure functions, following the spec's copy-on-write
contract for the base-class `copy`/`set_data`, which are not part of
src/); the new Measurement's table is exactly the Gate's output on the
input's table, and identity and metadata are shared unchanged. -/
theorem claim_C9 (m : FCMeasurement) (g : DataFrame → DataFrame) :
    (FCMeasurement.gate m g).data = g m.data ∧
    (FCMeasurement.gate m g).meta = m.meta ∧
    (FCMeasurement.gate m g).ID = m.ID :=
  ⟨rfl, rfl, rfl⟩

/-- C4: the 'start' policy is indeed forced for an integer key below 1
(the result here is `iloc[:-2]`, i.e. the FIRST two rows, although
`order='end'` was requested) — but the result is NOT empty: on a 4-row
measurement `subsample(-2)` returns 2 rows, contradicting both the claim
and the code's own comment "EDGE CAES: Must return an empty sample". -/
theorem claim_C4_bug :
    FCMeasurement.counts mFour = 4 ∧
    (FCMeasurement.subsample sampleTake mFour (.int (-2)) "end" false).map
      (fun mm => mm.data.rows) = .ok [(0, [1]), (1, [2])] := by decide

/-- C1: counterexample — a two-member collection whose members declare
ranges 1000 and 2000 for the selected channel A; the shared
auto-range transform call succeeds (validation reads only the first
member's metadata) instead of failing with the validation error. -/
theorem claim_C1_counterexample :
    selRanges wellR1000.meta ["A"] = [1000] ∧
    selRanges wellR2000.meta ["A"] = [2000] ∧
    (FCCollection.transform implId collMismatch (.named "hlog") "forward" true
      (some ["A"]) true true true false none).isOk = true := by decide

/-- C2: counterexample — ranges 1000000 and 1000001 differ, yet the
auto-range hlog transform succeeds (they are within `np.allclose`
tolerance) and silently derives `d = log10(1000000)` from the first
selected channel. -/
theorem claim_C2_counterexample :
    selRanges mRangeTol.meta ["A", "B"] = [1000000, 1000001] ∧
    resultD (FCMeasurement.transform implId mRangeTol (.named "hlog") "forward"
      (some ["A", "B"]) true true true none) = some (some (.log10 1000000)) := by decide

/-- C3: counterexample — on a 2-row measurement whose rows share a
label, `subsample(1.0)` (default random order) returns 4 rows, not
`floor(N * 1.0) = 2`: `random.sample` picks the label list `[7, 7]` and
`.loc` then returns every row matching each requested label.  The
random source used (`sampleTake`) is admissible: `validSample_sampleTake`. -/
theorem claim_C3_counterexample :
    FCMeasurement.counts mDupLabels = 2 ∧
    (FCMeasurement.subsample sampleTake mDupLabels (.float 1) "random" false).map
      FCMeasurement.counts = .ok 4 := by decide

/-- C5: counterexample — the tuple `(0.0, 2.0)` has a component outside
[0.0, 1.0] but `subsample` succeeds (2 of 2 rows selected): the code
never range-checks the tuple's floats. -/
theorem claim_C5_counterexample :
    (FCMeasurement.subsample sampleTake mTwoRows (.tuple [.float 0, .float 2])
      "random" false).map FCMeasurement.counts = .ok 2 := by decide

/-- C10: counterexample — a slice with unspecified stop and step 0:
`auto_resize=False` does NOT succeed (ValueError "slice step cannot be
zero" from iloc), refuting the claim's second half as stated for
arbitrary slices. -/
theorem claim_C10_counterexample :
    FCMeasurement.subsample sampleTake mTwoRows (.slice none none (some 0))
      "random" false = .error .zeroStep := by decide

@[simp] theorem exceptBind_ok {ε α β : Type} (a : α) (f : α → Except ε β) :
    (Except.ok a >>= f) = f a := rfl

@[simp] theorem exceptBind_error {ε α β : Type} (e : ε) (f : α → Except ε β) :
    ((Except.error e : Except ε α) >>= f) = Except.error e := rfl

@[simp] theorem exceptMap_ok {ε α β : Type} (a : α) (f : α → β) :
    (Except.ok a : Except ε α).map f = Except.ok (f a) := rfl

@[simp] theorem exceptMap_error {ε α β : Type} (e : ε) (f : α → β) :
    (Except.error e : Except ε α).map f = (Except.error e : Except ε β) := rfl

theorem sliceIdx_stop_none (L : ℕ) (a : Option ℤ) (s : ℤ) (hs : 0 < s) :
    sliceIdx L a none s = sliceIdx L a (some L) s := by
  have hL : ¬ ((L : ℤ) < 0) := not_lt.mpr (Int.natCast_nonneg L)
  unfold sliceIdx sliceResolve
  simp [hs, hL]

/-- C10 amended: a slice key with unspecified stop always fails with the
TypeError under `auto_resize=True` (the stop clamp compares `None`
before any row is touched); under `auto_resize=False` it succeeds and
selects rows through the end of the table whenever the step is
unspecified or positive (a zero step is an invalid-argument error and a
negative step runs toward the beginning instead, see the
counterexample). -/
theorem claim_C10_amended (σ : List ℕ → ℕ → List ℕ) (m : FCMeasurement)
    (start step : Option ℤ) (order : String) :
    FCMeasurement.subsample σ m (.slice start none step) order true =
      .error .typeErrorNone ∧
    ((step = none ∨ ∃ s, step = some s ∧ 0 < s) →
      FCMeasurement.subsample σ m (.slice start none step) order false =
        .ok (FCMeasurement.mk m.ID m.meta (m.data.ilocPos
          (sliceIdx m.data.rows.length start (some m.data.rows.length)
            (step.getD 1))))) := by
  constructor
  · simp [FCMeasurement.subsample, convertKey, sliceSelect]
  · intro hstep
    have hs : 0 < step.getD 1 := by
      rcases hstep with h | ⟨s, hsome, hpos⟩
      · simp [h]
      · simp [hsome, hpos]
    have hnz : ¬ (step.getD 1 = 0) := ne_of_gt hs
    simp [FCMeasurement.subsample, convertKey, sliceSelect, pySliceElems, hnz,
      FCMeasurement.copy, sliceIdx_stop_none _ _ _ hs]

/-- C10 witness: at a concrete slice `[1:]` on a two-row measurement. -/
theorem claim_C10_witness :
    FCMeasurement.subsample sampleTake mTwoRows (.slice (some 1) none none)
      "random" true = .error .typeErrorNone ∧
    FCMeasurement.subsample sampleTake mTwoRows (.slice (some 1) none none)
      "random" false =
      .ok (FCMeasurement.mk mTwoRows.ID mTwoRows.meta (mTwoRows.data.ilocPos
        (sliceIdx mTwoRows.data.rows.length (some 1)
          (some mTwoRows.data.rows.length) ((none : Option ℤ).getD 1)))) :=
  ⟨(claim_C10_amended sampleTake mTwoRows (some 1) none "random").1,
    (claim_C10_amended sampleTake mTwoRows (some 1) none "random").2 (Or.inl rfl)⟩

/-- C5 amended: a tuple key raises the invalid-argument ValueError
exactly when it is longer than two or has a non-float element; a
too-short all-float tuple instead raises IndexError (at `key[0]` or
`key[1]`); and a two-float tuple `(a, b)` is NEVER range-checked — it
selects the positional window from `int(N * a)` to `int(N * b)` for any
floats a, b (Python slice semantics, negative values counting from the
end). -/
theorem claim_C5_amended (σ : List ℕ → ℕ → List ℕ) (m : FCMeasurement)
    (xs : List PyVal) (order : String) (autoResize : Bool) :
    ((2 < xs.length ∨ ¬ (xs.all PyVal.isFloat = true)) →
      FCMeasurement.subsample σ m (.tuple xs) order autoResize = .error .badTuple) ∧
    (xs.length ≤ 1 → xs.all PyVal.isFloat = true →
      FCMeasurement.subsample σ m (.tuple xs) order autoResize = .error .indexError) ∧
    (∀ a b, xs = [.float a, .float b] →
      FCMeasurement.subsample σ m (.tuple xs) order false =
        .ok (FCMeasurement.mk m.ID m.meta (m.data.ilocPos
          (sliceIdx m.data.rows.length (some (pyIntMul m.data.rows.length a))
            (some (pyIntMul m.data.rows.length b)) 1)))) := by
  refine ⟨fun h => ?_, fun hlen hall => ?_, fun a b hxs => ?_⟩
  · simp only [FCMeasurement.subsample, convertKey]
    rw [if_pos h]
    simp
  · have hcond : ¬ (2 < xs.length ∨ ¬ (xs.all PyVal.isFloat = true)) := by
      push_neg
      exact ⟨by omega, hall⟩
    match xs, hlen, hall with
    | [], _, _ => simp [FCMeasurement.subsample, convertKey]
    | [x], _, hall =>
        match x, hall with
        | .float a, _ => simp [FCMeasurement.subsample, convertKey, PyVal.isFloat]
    | x :: y :: t, hlen, _ => simp at hlen
  · subst hxs
    simp [FCMeasurement.subsample, convertKey, sliceSelect, pySliceElems,
      FCMeasurement.copy, PyVal.isFloat]

/-- C5 witness: the concrete out-of-range tuple `(0.0, 2.0)` on a
two-row measurement selects the window `int(2*0.0) .. int(2*2.0)`. -/
theorem claim_C5_witness :
    FCMeasurement.subsample sampleTake mTwoRows (.tuple [.float 0, .float 2])
      "random" false =
      .ok (FCMeasurement.mk mTwoRows.ID mTwoRows.meta (mTwoRows.data.ilocPos
        (sliceIdx mTwoRows.data.rows.length
          (some (pyIntMul mTwoRows.data.rows.length 0))
          (some (pyIntMul mTwoRows.data.rows.length 2)) 1))) :=
  (claim_C5_amended sampleTake mTwoRows [.float 0, .float 2] "random" false).2.2 0 2 rfl

theorem max?_append (l1 l2 : List Value) :
    (l1 ++ l2).max? = optMax l1.max? l2.max? := by
  induction l1 with
  | nil => rfl
  | cons x xs ih =>
      rw [List.cons_append, List.max?_cons, List.max?_cons, ih]
      cases hxs : xs.max? <;> cases hl2 : l2.max? <;>
        simp [optMax, max_assoc]

theorem min?_append (l1 l2 : List Value) :
    (l1 ++ l2).min? = optMin l1.min? l2.min? := by
  induction l1 with
  | nil => rfl
  | cons x xs ih =>
      rw [List.cons_append, List.min?_cons, List.min?_cons, ih]
      cases hxs : xs.min? <;> cases hl2 : l2.min? <;>
        simp [optMin, min_assoc]

theorem transform_prebuilt_eq (impl : TransformImpl) (m : FCMeasurement)
    (t : Transformation) (direction : String) (cs : List String)
    (returnAll autoRange useSpln : Bool) (dArg : Option Value)
    (hcols : cs.all (fun c => decide (c ∈ m.data.columns)) = true) :
    FCMeasurement.transform impl m (.prebuilt t) direction (some cs)
      returnAll autoRange useSpln dArg =
      .ok (⟨m.ID, m.meta,
        (if returnAll then m.data else m.data.filterCols cs).assignCols cs t.f⟩, t) := by
  simp [FCMeasurement.transform, hcols]

theorem transformShared_isOk (impl : TransformImpl) (t : Transformation)
    (cs : List String) (returnAll useSpln : Bool) (coll : FCCollection)
    (hcols : ∀ km ∈ coll, cs.all (fun c => decide (c ∈ km.2.data.columns)) = true) :
    ∃ c', transformShared impl t cs returnAll useSpln coll = .ok c' := by
  induction coll with
  | nil => exact ⟨[], rfl⟩
  | cons km tl ih =>
      obtain ⟨k, m⟩ := km
      obtain ⟨c', hc'⟩ := ih (fun x hx => hcols x (List.mem_cons_of_mem _ hx))
      refine ⟨(k, ⟨m.ID, m.meta,
        (if returnAll then m.data else m.data.filterCols cs).assignCols cs t.f⟩) :: c', ?_⟩
      rw [transformShared,
        transform_prebuilt_eq impl m t "forward" cs returnAll true useSpln none
          (hcols (k, m) (List.mem_cons_self _ _)), hc']
      rfl

theorem collMax_eq_spec (coll : FCCollection) (cs : List String)
    (hcols : ∀ km ∈ coll, cs.all (fun c => decide (c ∈ km.2.data.columns)) = true) :
    collMax coll cs = .ok (specGlobalMax coll cs) := by
  induction coll with
  | nil => rfl
  | cons km tl ih =>
      obtain ⟨k, m⟩ := km
      have hm : memberMax m cs = .ok (selectedCells m.data cs).max? := by
        simp [memberMax, hcols (k, m) (List.mem_cons_self _ _)]
      rw [collMax, hm, ih (fun x hx => hcols x (List.mem_cons_of_mem _ hx))]
      simp [specGlobalMax, max?_append]

theorem collMin_eq_spec (coll : FCCollection) (cs : List String)
    (hcols : ∀ km ∈ coll, cs.all (fun c => decide (c ∈ km.2.data.columns)) = true) :
    collMin coll cs = .ok (specGlobalMin coll cs) := by
  induction coll with
  | nil => rfl
  | cons km tl ih =>
      obtain ⟨k, m⟩ := km
      have hm : memberMin m cs = .ok (selectedCells m.data cs).min? := by
        simp [memberMin, hcols (k, m) (List.mem_cons_self _ _)]
      rw [collMin, hm, ih (fun x hx => hcols x (List.mem_cons_of_mem _ hx))]
      simp [specGlobalMin, min?_append]

/-- C2 amended: for an auto-range transform of a log-like kind with no
explicit `d`, the call succeeds and passes `d = log10(ranges[0])` to the
Transformation exactly when the selected channels' declared ranges all
pass `np.allclose` against the first one; otherwise it fails with the
validation error whose message carries the "transform one channel at a
time" hint.  (The original claim's "if the declared ranges differ, the
call fails" is too strong: ranges differing within the allclose
tolerance are accepted and the first channel's range silently wins —
see the counterexample.) -/
theorem claim_C2_amended (impl : TransformImpl) (m : FCMeasurement) (cs : List String)
    (kind direction : String) (returnAll useSpln : Bool) (r0 : Value) (rest : List Value)
    (hranges : selRanges m.meta cs = r0 :: rest)
    (hkind : kind ∈ logKinds)
    (hcols : cs.all (fun c => decide (c ∈ m.data.columns)) = true) :
    (npAllClose (r0 :: rest) r0 = true →
      ∃ m' t, FCMeasurement.transform impl m (.named kind) direction (some cs)
          returnAll true useSpln none = .ok (m', t) ∧ t.dParam = some (.log10 r0)) ∧
    (npAllClose (r0 :: rest) r0 = false →
      FCMeasurement.transform impl m (.named kind) direction (some cs)
        returnAll true useSpln none = .error (.notSameRange true)) := by
  constructor
  · intro hclose
    have hd : deriveD true none m.meta cs kind true = .ok (some (.log10 r0)) := by
      simp [deriveD, hranges, hclose, hkind]
    refine ⟨⟨m.ID, m.meta,
      (if returnAll then m.data else m.data.filterCols cs).assignCols cs
        (mkTransformation impl kind direction (some (.log10 r0))).f⟩,
      mkTransformation impl kind direction (some (.log10 r0)), ?_, rfl⟩
    simp [FCMeasurement.transform, hd, hcols]
  · intro hclose
    have hd : deriveD true none m.meta cs kind true = .error (.notSameRange true) := by
      simp [deriveD, hranges, hclose]
    simp [FCMeasurement.transform, hd]

/-- C2 witness: equal ranges {A: 1000, B: 1000} succeed with
`d = log10(1000)`; ranges {A: 1000, B: 2000} fail with the hinted
validation error. -/
theorem claim_C2_witness :
    (∃ m' t, FCMeasurement.transform implId mRangeEq (.named "hlog") "forward"
        (some ["A", "B"]) true true true none = .ok (m', t) ∧
      t.dParam = some (.log10 1000)) ∧
    FCMeasurement.transform implId mRangeNeq (.named "hlog") "forward"
      (some ["A", "B"]) true true true none = .error (.notSameRange true) :=
  ⟨(claim_C2_amended implId mRangeEq ["A", "B"] "hlog" "forward" true true 1000 [1000]
      (by decide) (by decide) (by decide)).1 (by decide),
    (claim_C2_amended implId mRangeNeq ["A", "B"] "hlog" "forward" true true 1000 [2000]
      (by decide) (by decide) (by decide)).2 (by decide)⟩

/-- C1 amended: with `share_transform` the range validation reads ONLY
the first member's metadata.  The call fails (with the hint-less
validation error) exactly when the FIRST member's selected channels
declare ranges that fail `np.allclose` among themselves; ranges that
differ ACROSS members are never compared — the call succeeds and the
first member's range is silently used for every member (see the
counterexample). -/
theorem claim_C1_amended (impl : TransformImpl) (coll : FCCollection) (k0 : String)
    (m0 : FCMeasurement) (tl : FCCollection) (cs : List String) (kind direction : String)
    (returnAll useSpln getTransformer : Bool) (r0 : Value) (rest : List Value)
    (hcoll : coll = (k0, m0) :: tl)
    (hranges : selRanges m0.meta cs = r0 :: rest) :
    (npAllClose (r0 :: rest) r0 = false →
      FCCollection.transform impl coll (.named kind) direction true (some cs)
        returnAll true useSpln getTransformer none = .error (.notSameRange false)) ∧
    (npAllClose (r0 :: rest) r0 = true →
      (∀ km ∈ coll, cs.all (fun c => decide (c ∈ km.2.data.columns)) = true) →
      ∃ res t, FCCollection.transform impl coll (.named kind) direction true (some cs)
          returnAll true useSpln true none = .ok (res, some t) ∧
        t.dParam = (if kind ∈ logKinds then some (.log10 r0) else none)) := by
  subst hcoll
  constructor
  · intro hclose
    have hd : deriveD true none m0.meta cs kind false = .error (.notSameRange false) := by
      simp [deriveD, hranges, hclose]
    simp [FCCollection.transform, hd]
  · intro hclose hcols
    have hd : deriveD true none m0.meta cs kind false =
        .ok (if kind ∈ logKinds then some (.log10 r0) else none) := by
      by_cases hk : kind ∈ logKinds <;> simp [deriveD, hranges, hclose, hk]
    cases useSpln with
    | false =>
        obtain ⟨c', hc'⟩ := transformShared_isOk impl
          (mkTransformation impl kind direction
            (if kind ∈ logKinds then some (.log10 r0) else none))
          cs returnAll false ((k0, m0) :: tl) hcols
        refine ⟨c', mkTransformation impl kind direction
          (if kind ∈ logKinds then some (.log10 r0) else none), ?_, rfl⟩
        simp [FCCollection.transform, hd, hc']
    | true =>
        obtain ⟨c', hc'⟩ := transformShared_isOk impl
          (Transformation.mk kind direction
            (impl kind direction (if kind ∈ logKinds then some (.log10 r0) else none))
            (if kind ∈ logKinds then some (.log10 r0) else none)
            (some (specGlobalMin ((k0, m0) :: tl) cs, specGlobalMax ((k0, m0) :: tl) cs)))
          cs returnAll true ((k0, m0) :: tl) hcols
        refine ⟨c', Transformation.mk kind direction
          (impl kind direction (if kind ∈ logKinds then some (.log10 r0) else none))
          (if kind ∈ logKinds then some (.log10 r0) else none)
          (some (specGlobalMin ((k0, m0) :: tl) cs, specGlobalMax ((k0, m0) :: tl) cs)), ?_, rfl⟩
        simp [FCCollection.transform, hd, hc', collMax_eq_spec _ _ hcols,
          collMin_eq_spec _ _ hcols, mkTransformation]

/-- C1 witness: the cross-member-mismatch collection (ranges 1000 and
2000 on the two members) succeeds with the first member's range; a
collection whose FIRST member has internally mismatched ranges fails. -/
theorem claim_C1_witness :
    (∃ res t, FCCollection.transform implId collMismatch (.named "hlog") "forward" true
        (some ["A"]) true true true true none = .ok (res, some t) ∧
      t.dParam = (if "hlog" ∈ logKinds then some (.log10 1000) else none)) ∧
    FCCollection.transform implId collBadFirst (.named "hlog") "forward" true
      (some ["A", "B"]) true true true true none = .error (.notSameRange false) :=
  ⟨(claim_C1_amended implId collMismatch "k1" wellR1000 [("k2", wellR2000)] ["A"] "hlog"
      "forward" true true true 1000 [] rfl (by decide)).2 (by decide) (by decide),
    (claim_C1_amended implId collBadFirst "k1" mRangeNeq [] ["A", "B"] "hlog" "forward"
      true true true 1000 [2000] rfl (by decide)).1 (by decide)⟩

/-- C7: whenever a shared transform with `use_spline` builds a fresh
Transformation (regardless of how the range parameter was derived), the
spline bounds it carries are exactly the collection-wide minimum and
maximum of the selected channels over ALL members (`specGlobalMin` /
`specGlobalMax` flatten every member's selected cells), not any single
member's extrema. -/
theorem claim_C7 (impl : TransformImpl) (coll : FCCollection) (k0 : String)
    (m0 : FCMeasurement) (tl : FCCollection) (cs : List String) (kind direction : String)
    (returnAll autoRange : Bool) (dArg : Option Value)
    (hcoll : coll = (k0, m0) :: tl)
    (hok : (deriveD autoRange dArg m0.meta cs kind false).isOk = true)
    (hcols : ∀ km ∈ coll, cs.all (fun c => decide (c ∈ km.2.data.columns)) = true) :
    ∃ res t, FCCollection.transform impl coll (.named kind) direction true (some cs)
        returnAll autoRange true true dArg = .ok (res, some t) ∧
      t.spline = some (specGlobalMin coll cs, specGlobalMax coll cs) := by
  subst hcoll
  cases hd : deriveD autoRange dArg m0.meta cs kind false with
  | error e => rw [hd] at hok; simp [Except.isOk, Except.toBool] at hok
  | ok d =>
      obtain ⟨c', hc'⟩ := transformShared_isOk impl
        (Transformation.mk kind direction (impl kind direction d) d
          (some (specGlobalMin ((k0, m0) :: tl) cs, specGlobalMax ((k0, m0) :: tl) cs)))
        cs returnAll true ((k0, m0) :: tl) hcols
      refine ⟨c', Transformation.mk kind direction (impl kind direction d) d
        (some (specGlobalMin ((k0, m0) :: tl) cs, specGlobalMax ((k0, m0) :: tl) cs)), ?_, rfl⟩
      simp [FCCollection.transform, hd, hc', collMax_eq_spec _ _ hcols,
        collMin_eq_spec _ _ hcols, mkTransformation]

/-- C7 witness: members with values {1, 5} and {2, 9} — the fitted
bounds are the global (1, 9), which no single member spans. -/
theorem claim_C7_witness :
    ∃ res t, FCCollection.transform implId collSpline (.named "hlog") "forward" true
        (some ["A"]) true true true true none = .ok (res, some t) ∧
      t.spline = some (specGlobalMin collSpline ["A"], specGlobalMax collSpline ["A"]) :=
  claim_C7 implId collSpline "k1" wellSp1 [("k2", wellSp2)] ["A"] "hlog" "forward"
    true true none rfl (by decide) (by decide)

theorem validSample_length (σ : List ℕ → ℕ → List ℕ) (hσ : validSample σ)
    (l : List ℕ) (k : ℕ) (hk : k ≤ l.length) : (σ l k).length = k := by
  obtain ⟨sub, _, hlen, hperm⟩ := hσ l k hk
  rw [hperm.length_eq, hlen]

theorem validSample_mem (σ : List ℕ → ℕ → List ℕ) (hσ : validSample σ)
    (l : List ℕ) (k : ℕ) (hk : k ≤ l.length) (x : ℕ) (hx : x ∈ σ l k) : x ∈ l := by
  obtain ⟨sub, hsub, _, hperm⟩ := hσ l k hk
  exact hsub.subset (hperm.mem_iff.mp hx)

theorem validSample_nodup (σ : List ℕ → ℕ → List ℕ) (hσ : validSample σ)
    (l : List ℕ) (k : ℕ) (hk : k ≤ l.length) (hnd : l.Nodup) : (σ l k).Nodup := by
  obtain ⟨sub, hsub, _, hperm⟩ := hσ l k hk
  exact hperm.nodup_iff.mpr (hnd.sublist hsub)

theorem filter_label_len (rows : List (ℕ × List Value)) (l : ℕ)
    (hnd : (rows.map Prod.fst).Nodup) (hl : l ∈ rows.map Prod.fst) :
    (rows.filter (fun r => decide (r.1 = l))).length = 1 := by
  induction rows with
  | nil => simp at hl
  | cons r rows ih =>
      simp only [List.map_cons, List.nodup_cons] at hnd
      rcases List.mem_cons.mp hl with h | h
      · rw [List.filter_cons_of_pos (by simp [h])]
        have hnil : rows.filter (fun r' => decide (r'.1 = l)) = [] := by
          rw [List.filter_eq_nil_iff]
          intro a ha
          simp only [decide_eq_true_eq]
          intro heq
          exact hnd.1 (h ▸ heq ▸ List.mem_map_of_mem Prod.fst ha)
        simp [hnil]
      · have hne : ¬ (decide (r.1 = l) = true) := by
          simp only [decide_eq_true_eq]
          intro heq
          exact hnd.1 (heq ▸ h)
        rw [List.filter_cons, if_neg hne]
        exact ih hnd.2 h

theorem loc_length (rows : List (ℕ × List Value)) (ls : List ℕ)
    (hnd : (rows.map Prod.fst).Nodup) (hls : ∀ l ∈ ls, l ∈ rows.map Prod.fst) :
    (ls.flatMap (fun l => rows.filter (fun r => decide (r.1 = l)))).length = ls.length := by
  induction ls with
  | nil => rfl
  | cons l ls ih =>
      rw [List.flatMap_cons, List.length_append,
        filter_label_len rows l hnd (hls l (List.mem_cons_self _ _)),
        ih (fun x hx => hls x (List.mem_cons_of_mem _ hx)), List.length_cons]
      omega

theorem loc_mem (rows : List (ℕ × List Value)) (ls : List ℕ)
    (r : ℕ × List Value)
    (hr : r ∈ ls.flatMap (fun l => rows.filter (fun r' => decide (r'.1 = l)))) :
    r ∈ rows := by
  obtain ⟨l, _, hrf⟩ := List.mem_flatMap.mp hr
  exact (List.mem_filter.mp hrf).1

theorem loc_nodup (rows : List (ℕ × List Value)) (ls : List ℕ)
    (hnd : (rows.map Prod.fst).Nodup) (hlsnd : ls.Nodup)
    (hls : ∀ l ∈ ls, l ∈ rows.map Prod.fst) :
    (ls.flatMap (fun l => rows.filter (fun r => decide (r.1 = l)))).Nodup := by
  induction ls with
  | nil => simp
  | cons l ls ih =>
      rw [List.flatMap_cons]
      simp only [List.nodup_cons] at hlsnd
      apply List.Nodup.append
      · obtain ⟨a, ha⟩ := List.length_eq_one.mp
          (filter_label_len rows l hnd (hls l (List.mem_cons_self _ _)))
        rw [ha]
        exact List.nodup_singleton a
      · exact ih hlsnd.2 (fun x hx => hls x (List.mem_cons_of_mem _ hx))
      · intro x hx1 hx2
        have hxl : x.1 = l := by
          have := (List.mem_filter.mp hx1).2
          simpa using this
        obtain ⟨l', hl', hx2'⟩ := List.mem_flatMap.mp hx2
        have hxl' : x.1 = l' := by
          have := (List.mem_filter.mp hx2').2
          simpa using this
        exact hlsnd.1 (hxl ▸ hxl' ▸ hl')

theorem sliceIdx_zero_stop (N : ℕ) : sliceIdx N none (some 0) 1 = [] := by
  simp [sliceIdx, sliceResolve, sliceCount, min_eq_left (Int.natCast_nonneg N)]

theorem subsample_random_spec (σ : List ℕ → ℕ → List ℕ) (hσ : validSample σ)
    (m : FCMeasurement) (hnd : m.data.labels.Nodup) (kz : ℤ) (hk0 : 0 ≤ kz)
    (hkN : kz ≤ (m.data.rows.length : ℤ)) :
    ∃ m', FCMeasurement.subsample σ m (.int kz) "random" false = .ok m' ∧
      FCMeasurement.counts m' = kz.toNat ∧ m'.data.rows.Nodup ∧
      ∀ r ∈ m'.data.rows, r ∈ m.data.rows := by
  have hlab : m.data.labels.length = m.data.rows.length := List.length_map _ _
  rcases eq_or_lt_of_le hk0 with h0 | hpos
  · refine ⟨⟨m.ID, m.meta, ⟨m.data.columns, []⟩⟩, ?_,
      by simp [FCMeasurement.counts]; omega, by simp, by simp⟩
    rw [← h0]
    simp [FCMeasurement.subsample, convertKey, intSelect, pySliceElems, FCMeasurement.copy,
      DataFrame.ilocPos, sliceIdx_zero_stop]
  · have hk1 : ¬ (kz < 1) := by omega
    have hksamp : ¬ (m.data.labels.length < kz.toNat) := by
      rw [hlab]
      omega
    have hmemle : kz.toNat ≤ m.data.labels.length := by omega
    have hls : ∀ l ∈ σ m.data.labels kz.toNat, l ∈ m.data.rows.map Prod.fst :=
      fun l hl => validSample_mem σ hσ _ _ hmemle l hl
    refine ⟨⟨m.ID, m.meta, m.data.locLabels (σ m.data.labels kz.toNat)⟩, ?_, ?_, ?_, ?_⟩
    · have h1le : 1 ≤ kz := by omega
      have hnotlt : ¬ ((m.data.labels.length : ℤ) < kz) := by omega
      simp [FCMeasurement.subsample, convertKey, intSelect, pySample, hk1, hksamp,
        FCMeasurement.copy, h1le, hnotlt]
    · show (DataFrame.locLabels m.data (σ m.data.labels kz.toNat)).rows.length = kz.toNat
      rw [DataFrame.locLabels]
      rw [loc_length m.data.rows (σ m.data.labels kz.toNat) hnd hls]
      exact validSample_length σ hσ _ _ hmemle
    · exact loc_nodup m.data.rows (σ m.data.labels kz.toNat) hnd
        (validSample_nodup σ hσ _ _ hmemle hnd) hls
    · exact fun r hr => loc_mem m.data.rows (σ m.data.labels kz.toNat) r hr

/-- C6: random subsampling with a count `0 ≤ k ≤ N`, distinct row labels
and `auto_resize=False` yields exactly k distinct rows of the original
table, no duplicates (k = 0 goes through the forced 'start' branch and
yields the empty table). -/
theorem claim_C6 (σ : List ℕ → ℕ → List ℕ) (hσ : validSample σ) (m : FCMeasurement)
    (hnd : m.data.labels.Nodup) (k : ℕ) (hk : k ≤ FCMeasurement.counts m) :
    ∃ m', FCMeasurement.subsample σ m (.int (k : ℤ)) "random" false = .ok m' ∧
      FCMeasurement.counts m' = k ∧ m'.data.rows.Nodup ∧
      ∀ r ∈ m'.data.rows, r ∈ m.data.rows := by
  have h := subsample_random_spec σ hσ m hnd (k : ℤ) (Int.natCast_nonneg k)
    (by exact_mod_cast hk)
  simpa [Int.toNat_natCast] using h

/-- C6 witness: picking 2 of 4 rows at a concrete admissible random
source. -/
theorem claim_C6_witness :
    ∃ m', FCMeasurement.subsample sampleTake mFour (.int ((2 : ℕ) : ℤ)) "random" false =
        .ok m' ∧
      FCMeasurement.counts m' = 2 ∧ m'.data.rows.Nodup ∧
      ∀ r ∈ m'.data.rows, r ∈ mFour.data.rows :=
  claim_C6 sampleTake validSample_sampleTake mFour (by decide) 2 (by decide)

/-- C3 amended: restricted to measurements with DISTINCT row labels, a
float key `k ∈ [0.0, 1.0]` (default random order) yields exactly
`floor(N * k)` rows; `subsample(0.0)` yields 0 rows through the forced
'start' rule for every order and resize mode; a float outside [0.0,
1.0] fails with the invalid-argument error.  (Without the distinct-label
restriction the count is wrong: `.loc` duplicates rows of a non-unique
index — see the counterexample.) -/
theorem claim_C3_amended (σ : List ℕ → ℕ → List ℕ) (hσ : validSample σ)
    (m : FCMeasurement) (hnd : m.data.labels.Nodup) (q : ℚ) :
    (0 ≤ q → q ≤ 1 →
      ∃ m', FCMeasurement.subsample σ m (.float q) "random" false = .ok m' ∧
        FCMeasurement.counts m' = (⌊(FCMeasurement.counts m : ℚ) * q⌋).toNat) ∧
    (∀ order autoResize, ∃ m', FCMeasurement.subsample σ m (.float 0) order autoResize =
        .ok m' ∧ FCMeasurement.counts m' = 0) ∧
    (∀ order autoResize, (1 < q ∨ q < 0) →
      FCMeasurement.subsample σ m (.float q) order autoResize = .error .floatKeyRange) := by
  refine ⟨fun hq0 hq1 => ?_, fun order autoResize => ?_, fun order autoResize h => ?_⟩
  · have hcond : ¬ (1 < q ∨ q < 0) := by
      push_neg
      exact ⟨hq1, hq0⟩
    have hred : FCMeasurement.subsample σ m (.float q) "random" false =
        FCMeasurement.subsample σ m (.int (pyIntMul m.data.rows.length q)) "random" false := by
      simp [FCMeasurement.subsample, convertKey, hcond]
    have hfl := pyIntMul_eq_floor m.data.rows.length q hq0
    have hk0 : 0 ≤ pyIntMul m.data.rows.length q := by
      rw [hfl]
      exact Int.floor_nonneg.mpr (mul_nonneg (by positivity) hq0)
    have hkN : pyIntMul m.data.rows.length q ≤ (m.data.rows.length : ℤ) := by
      rw [hfl]
      calc ⌊(m.data.rows.length : ℚ) * q⌋ ≤ ⌊((m.data.rows.length : ℕ) : ℚ)⌋ :=
            Int.floor_le_floor (mul_le_of_le_one_right (by positivity) hq1)
        _ = (m.data.rows.length : ℤ) := Int.floor_natCast _
    obtain ⟨m', hm', hcount, _, _⟩ := subsample_random_spec σ hσ m hnd _ hk0 hkN
    refine ⟨m', hred ▸ hm', ?_⟩
    rw [hcount, hfl]
    rfl
  · have h10 : ¬ ((1 : ℚ) < 0) := by norm_num
    have h00 : ¬ ((0 : ℚ) < 0) := by norm_num
    have hpz : pyIntMul m.data.rows.length 0 = 0 := by
      simp [pyIntMul]
    have hNneg : ¬ ((m.data.rows.length : ℤ) < 0) := not_lt.mpr (Int.natCast_nonneg _)
    refine ⟨⟨m.ID, m.meta, ⟨m.data.columns, []⟩⟩, ?_, by simp [FCMeasurement.counts]⟩
    simp [FCMeasurement.subsample, convertKey, h10, h00, hpz, intSelect, hNneg,
      pySliceElems, FCMeasurement.copy, DataFrame.ilocPos, sliceIdx_zero_stop]
  · simp [FCMeasurement.subsample, convertKey, h]

/-- C3 witness: `subsample(1.0)` on the 4-row distinct-label measurement
through the concrete admissible random source. -/
theorem claim_C3_witness :
    validSample sampleTake ∧
    (∃ m', FCMeasurement.subsample sampleTake mFour (.float 1) "random" false = .ok m' ∧
      FCMeasurement.counts m' = (⌊(FCMeasurement.counts mFour : ℚ) * 1⌋).toNat) :=
  ⟨validSample_sampleTake,
    (claim_C3_amended sampleTake validSample_sampleTake mFour (by decide) 1).1
      (by decide) (by decide)⟩

theorem projCell_map_self (ks : List String) (g : String → Value) (c : String)
    (hc : c ∈ ks) : projCell ks (ks.map g) c = g c := by
  induction ks with
  | nil => simp at hc
  | cons k0 ks ih =>
      rw [List.map_cons]
      by_cases h : k0 = c
      · simp [projCell, h]
      · rcases List.mem_cons.mp hc with h' | h'
        · exact absurd h'.symm h
        · simp [projCell, h, ih h']

theorem mapCells_projCell (cs : List String) (f : Value → Value) (cols : List String)
    (vs : List Value) (c : String) (hlen : vs.length = cols.length) (hc : c ∈ cols) :
    projCell cols (mapCells cs f cols vs) c =
      if c ∈ cs then f (projCell cols vs c) else projCell cols vs c := by
  induction cols generalizing vs with
  | nil => simp at hc
  | cons c0 cols ih =>
      cases vs with
      | nil => simp at hlen
      | cons v vs =>
          simp only [List.length_cons] at hlen
          rw [mapCells]
          by_cases h : c0 = c
          · subst h
            simp [projCell]
          · rcases List.mem_cons.mp hc with h' | h'
            · exact absurd h'.symm h
            · simp [projCell, h, ih vs (by omega) h']

theorem assignCols_colVals_mem (df : DataFrame) (cs : List String) (f : Value → Value)
    (c : String) (hwf : df.WF) (hc : c ∈ cs) :
    (df.assignCols cs f).colVals c = (df.colVals c).map (List.map f) := by
  by_cases hcol : c ∈ df.columns
  · simp only [DataFrame.colVals, DataFrame.assignCols, hcol, if_pos, List.map_map,
      Option.map_some]
    congr 1
    rw [List.map_map]
    refine List.map_congr_left (fun r hr => ?_)
    simp only [Function.comp]
    rw [mapCells_projCell cs f df.columns r.2 c (hwf r hr) hcol, if_pos hc]
  · simp [DataFrame.colVals, DataFrame.assignCols, hcol]

theorem assignCols_colVals_not_mem (df : DataFrame) (cs : List String) (f : Value → Value)
    (c : String) (hwf : df.WF) (hc : c ∉ cs) :
    (df.assignCols cs f).colVals c = df.colVals c := by
  by_cases hcol : c ∈ df.columns
  · simp only [DataFrame.colVals, DataFrame.assignCols, hcol, if_pos]
    congr 1
    rw [List.map_map]
    refine List.map_congr_left (fun r hr => ?_)
    simp only [Function.comp]
    rw [mapCells_projCell cs f df.columns r.2 c (hwf r hr) hcol, if_neg hc]
  · simp [DataFrame.colVals, DataFrame.assignCols, hcol]

theorem filterCols_colVals_mem (df : DataFrame) (items : List String) (c : String)
    (hc : c ∈ items) (hcol : c ∈ df.columns) :
    (df.filterCols items).colVals c = df.colVals c := by
  have hkeep : c ∈ items.filter (fun c => decide (c ∈ df.columns)) :=
    List.mem_filter.mpr ⟨hc, by simpa⟩
  simp only [DataFrame.colVals, DataFrame.filterCols, hkeep, if_pos, hcol]
  congr 1
  rw [List.map_map]
  exact List.map_congr_left (fun r hr => projCell_map_self _ _ _ hkeep)

theorem filterCols_colVals_not_mem (df : DataFrame) (items : List String) (c : String)
    (hc : c ∉ items) : (df.filterCols items).colVals c = none := by
  have hnk : c ∉ items.filter (fun c => decide (c ∈ df.columns)) :=
    fun h => hc (List.mem_filter.mp h).1
  simp [DataFrame.colVals, DataFrame.filterCols, hnk]

theorem filterCols_WF (df : DataFrame) (items : List String) :
    (df.filterCols items).WF := by
  intro r hr
  simp only [DataFrame.filterCols] at hr ⊢
  obtain ⟨r0, _, rfl⟩ := List.mem_map.mp hr
  simp

theorem transform_ok_shape (impl : TransformImpl) (m : FCMeasurement)
    (spec : TransformSpec) (direction : String) (channels? : Option (List String))
    (returnAll autoRange useSpln : Bool) (dArg : Option Value)
    (hok : (FCMeasurement.transform impl m spec direction channels? returnAll autoRange
      useSpln dArg).isOk = true) :
    ∃ t, (channels?.getD m.data.columns).all (fun c => decide (c ∈ m.data.columns)) = true ∧
      FCMeasurement.transform impl m spec direction channels? returnAll autoRange
          useSpln dArg =
        .ok (⟨m.ID, m.meta,
          (if returnAll then m.data
            else m.data.filterCols (channels?.getD m.data.columns)).assignCols
            (channels?.getD m.data.columns) t.f⟩, t) := by
  rcases spec with t | kind
  · cases hall : (channels?.getD m.data.columns).all (fun c => decide (c ∈ m.data.columns)) with
    | false =>
        rw [show FCMeasurement.transform impl m (.prebuilt t) direction channels? returnAll
            autoRange useSpln dArg = .error .keyError by
          simp [FCMeasurement.transform, hall]] at hok
        simp [Except.isOk, Except.toBool] at hok
    | true => exact ⟨t, rfl, by simp [FCMeasurement.transform, hall]⟩
  · cases hd : deriveD autoRange dArg m.meta (channels?.getD m.data.columns) kind true with
    | error e =>
        rw [show FCMeasurement.transform impl m (.named kind) direction channels? returnAll
            autoRange useSpln dArg = .error e by
          simp [FCMeasurement.transform, hd]] at hok
        simp [Except.isOk, Except.toBool] at hok
    | ok d =>
        cases hall : (channels?.getD m.data.columns).all
            (fun c => decide (c ∈ m.data.columns)) with
        | false =>
            rw [show FCMeasurement.transform impl m (.named kind) direction channels? returnAll
                autoRange useSpln dArg = .error .keyError by
              simp [FCMeasurement.transform, hd, hall]] at hok
            simp [Except.isOk, Except.toBool] at hok
        | true =>
            exact ⟨mkTransformation impl kind direction d, rfl,
              by simp [FCMeasurement.transform, hd, hall]⟩

/-- C8: for every successful transform call with selected channels `cs`
(`channels=None` selecting all data columns): with `return_all=True` the
output table keeps the full column list in its original order, every
non-selected column unchanged in value, and every selected column
replaced in place by its transformed values; with `return_all=False` the
output's columns are exactly the selected channels (the others are
dropped), the selected columns again carrying the transformed values. -/
theorem claim_C8 (impl : TransformImpl) (m : FCMeasurement) (spec : TransformSpec)
    (direction : String) (channels? : Option (List String)) (cs : List String)
    (returnAll autoRange useSpln : Bool) (dArg : Option Value)
    (hwf : m.data.WF)
    (hcs : cs = channels?.getD m.data.columns)
    (hok : (FCMeasurement.transform impl m spec direction channels? returnAll autoRange
      useSpln dArg).isOk = true) :
    ∃ m' t, FCMeasurement.transform impl m spec direction channels? returnAll autoRange
        useSpln dArg = .ok (m', t) ∧
      (returnAll = true →
        m'.data.columns = m.data.columns ∧
        (∀ c, c ∉ cs → m'.data.colVals c = m.data.colVals c) ∧
        (∀ c, c ∈ cs → m'.data.colVals c = (m.data.colVals c).map (List.map t.f))) ∧
      (returnAll = false →
        m'.data.columns = cs ∧
        (∀ c, c ∈ cs → m'.data.colVals c = (m.data.colVals c).map (List.map t.f)) ∧
        (∀ c, c ∉ cs → m'.data.colVals c = none)) := by
  obtain ⟨t, hall, heq⟩ := transform_ok_shape impl m spec direction channels? returnAll
    autoRange useSpln dArg hok
  rw [← hcs] at hall heq
  have hsub : ∀ c ∈ cs, c ∈ m.data.columns := by
    intro c hc
    have := List.all_eq_true.mp hall c hc
    simpa using this
  refine ⟨_, t, heq, ?_, ?_⟩
  · rintro rfl
    refine ⟨rfl, fun c hc => ?_, fun c hc => ?_⟩
    · exact assignCols_colVals_not_mem m.data cs t.f c hwf hc
    · exact assignCols_colVals_mem m.data cs t.f c hwf hc
  · rintro rfl
    refine ⟨?_, fun c hc => ?_, fun c hc => ?_⟩
    · show (cs.filter (fun c => decide (c ∈ m.data.columns))) = cs
      rw [List.filter_eq_self]
      intro c hc
      simpa using hsub c hc
    · exact (assignCols_colVals_mem (m.data.filterCols cs) cs t.f c
        (filterCols_WF m.data cs) hc).trans
        (by rw [filterCols_colVals_mem m.data cs c hc (hsub c hc)])
    · exact (assignCols_colVals_not_mem (m.data.filterCols cs) cs t.f c
        (filterCols_WF m.data cs) hc).trans
        (filterCols_colVals_not_mem m.data cs c hc)

/-- C8 witness: transforming column B of a three-column measurement with
an already-built transformer, keeping all columns. -/
theorem claim_C8_witness :
    ∃ m' t, FCMeasurement.transform implId mABC (.prebuilt tIdent) "forward"
        (some ["B"]) true true true none = .ok (m', t) ∧
      (true = true →
        m'.data.columns = mABC.data.columns ∧
        (∀ c, c ∉ ["B"] → m'.data.colVals c = mABC.data.colVals c) ∧
        (∀ c, c ∈ ["B"] →
          m'.data.colVals c = (mABC.data.colVals c).map (List.map t.f))) ∧
      (true = false →
        m'.data.columns = ["B"] ∧
        (∀ c, c ∈ ["B"] →
          m'.data.colVals c = (mABC.data.colVals c).map (List.map t.f)) ∧
        (∀ c, c ∉ ["B"] → m'.data.colVals c = none)) :=
  claim_C8 implId mABC (.prebuilt tIdent) "forward" (some ["B"]) ["B"] true true true none
    (by
      show ∀ r ∈ mABC.data.rows, r.2.length = mABC.data.columns.length
      decide)
    rfl (by decide)

